import Mathlib

/-!
Verification of the child-process supervisor and I/O bridge of mintty
(`src/child.c`) against its natural-language specification.

The embedding below translates the logic of `child.c` into Lean:

* wait statuses are the sum `WaitStatus` (the values `WIFEXITED`,
  `WIFSIGNALED`, `WEXITSTATUS`, `WTERMSIG` extract from a raw status word);
* the `sigchld` handler becomes a decision function `sigchldDecide`
  (the `exit(0)`-or-hold choice at lines 87-105) plus a reaping loop
  `sigchldLoop` over the sequence of `waitpid` results;
* `sigexit` and `child_kill` become functions returning the actions they
  perform;
* the `child_proc` event loop becomes a step function over a trace of
  `select` outcomes, emitting the observable outputs (bytes displayed,
  bytes logged, status messages, raw `read` returns);
* `child_write` / `child_send` / `child_sendw` become effect lists;
* the POSIX-side path expansion of `child_conv_path` becomes
  `child_conv_path_exp`; the host-native conversion performed afterwards
  by the Cygwin library (`cygwin_create_path` plus the long-path-prefix
  stripping of its output) is host API code outside this file and is kept
  as an abstract function parameter `host_conv`.

Signal numbers follow the Cygwin numbering used by the source's headers.
-/

/-! ## Signal numbers (Cygwin numbering) -/

def SIGHUP : Nat := 1
def SIGINT : Nat := 2
def SIGQUIT : Nat := 3
def SIGILL : Nat := 4
def SIGTRAP : Nat := 5
def SIGABRT : Nat := 6
def SIGFPE : Nat := 8
def SIGKILL : Nat := 9
def SIGBUS : Nat := 10
def SIGSEGV : Nat := 11
def SIGSYS : Nat := 12
def SIGPIPE : Nat := 13
def SIGTERM : Nat := 15
def SIGCHLD : Nat := 20

/-! ## Wait statuses -/

/-- A child's termination status as decoded by the `WIF*` macros:
either a normal exit with a code, or death by a signal. -/
inductive WaitStatus
  | exited (code : Nat)
  | signaled (sig : Nat)
deriving DecidableEq, Repr

/-- `WIFEXITED(status)`. -/
def WIFEXITED : WaitStatus → Bool
  | .exited _ => true
  | .signaled _ => false

/-- `WIFSIGNALED(status)`. -/
def WIFSIGNALED : WaitStatus → Bool
  | .exited _ => false
  | .signaled _ => true

/-- `WEXITSTATUS(status)`: the exit code; on a signaled status the raw
encoding's high byte is 0. -/
def WEXITSTATUS : WaitStatus → Nat
  | .exited code => code
  | .signaled _ => 0

/-- `WTERMSIG(status)`: the terminating signal; 0 on a normal exit. -/
def WTERMSIG : WaitStatus → Nat
  | .exited _ => 0
  | .signaled sig => sig

/-! ## The hold (termination) policy -/

/-- The termination policy `hold` read from the configuration
(spec §3 TerminationPolicy). -/
inductive Hold
  | HOLD_NEVER
  | HOLD_DEFAULT
  | HOLD_ERROR
deriving DecidableEq, Repr

/-- The `error_sigs` bitmask of `sigchld` (child.c lines 99-101):
`1<<SIGILL | 1<<SIGTRAP | 1<<SIGABRT | 1<<SIGFPE | 1<<SIGBUS | 1<<SIGSEGV |
1<<SIGPIPE | 1<<SIGSYS`. -/
def error_sigs : Nat :=
  1 <<< SIGILL ||| 1 <<< SIGTRAP ||| 1 <<< SIGABRT ||| 1 <<< SIGFPE |||
  1 <<< SIGBUS ||| 1 <<< SIGSEGV ||| 1 <<< SIGPIPE ||| 1 <<< SIGSYS

/-- The exit-or-hold decision taken by `sigchld` once the tracked child's
status has been captured (child.c lines 86-105). `true` means the handler
calls `exit(0)` (terminate the whole process); `false` means it holds the
session open. -/
def sigchldDecide (killed : Bool) (hold : Hold) (st : WaitStatus) : Bool :=
  if killed || hold == Hold.HOLD_NEVER then
    true
  else if hold == Hold.HOLD_DEFAULT then
    WIFSIGNALED st || WEXITSTATUS st != 255
  else if hold == Hold.HOLD_ERROR then
    if WIFEXITED st then
      WEXITSTATUS st == 0
    else
      (error_sigs &&& (1 <<< WTERMSIG st)) != 0
  else
    false

/-! ## The reaping loop of `sigchld` -/

/-- One return of `waitpid(-1, &chld_status, WNOHANG)` together with
whether a failure was an `EINTR` interruption: `cpid` is the returned pid
(`0` when nothing is outstanding, `-1` on error), `st` the status it wrote,
`eintr` whether `errno == EINTR` on a `-1` return. -/
inductive WaitCall
  | ret (cpid : Int) (st : WaitStatus) (eintr : Bool)
deriving DecidableEq

/-- The outcome of a `sigchld` run: either the handler called `exit(0)`,
or it returned with the final `(pid, status)` pair. -/
inductive SigRes
  | exited0
  | cont (pid : Int) (status : Option WaitStatus)
deriving DecidableEq

/-- The `for (;;)` reaping loop of `sigchld` (child.c lines 68-106), driven
by the successive `waitpid` results. The loop discards results for
processes other than the tracked child and `EINTR` interruptions, stops
when nothing is outstanding (`chld_pid <= 0`), and on capturing the tracked
child's status records `pid = 0`, `status = chld_status` and applies
`sigchldDecide`. -/
def sigchldLoop (killed : Bool) (hold : Hold) :
    Int → Option WaitStatus → List WaitCall → SigRes
  | pid, status, [] => SigRes.cont pid status
  | pid, status, WaitCall.ret cpid st eintr :: rest =>
    if (cpid > 0 ∧ cpid ≠ pid) ∨ (cpid = -1 ∧ eintr = true) then
      sigchldLoop killed hold pid status rest
    else if cpid ≤ 0 then
      SigRes.cont pid status
    else if sigchldDecide killed hold st then
      SigRes.exited0
    else
      sigchldLoop killed hold 0 (some st) rest

/-! ## `child_kill` -/

/-- The outcome of `child_kill` (child.c lines 289-297): `exitNow` when it
calls `exit(0)` at once, `deferred` when it sets `killed = true` and leaves
termination to `sigchld`. -/
inductive KillOutcome
  | exitNow
  | deferred
deriving DecidableEq

/-- `child_kill(point_blank)`: exits immediately when there is no tracked
child (`!pid`), when forwarding the termination signal to the child's
process group failed (`kill(-pid, ...) < 0`, here the input `kill_failed`),
or when `point_blank` was requested; otherwise marks `killed`. -/
def child_kill (pid : Int) (kill_failed point_blank : Bool) : KillOutcome :=
  if pid == 0 || kill_failed || point_blank then
    KillOutcome.exitNow
  else
    KillOutcome.deferred

/-! ## `sigexit` and the handler installation of `child_create` -/

/-- An action performed by the `sigexit` handler: `killpg pid sig` stands
for `kill(-pid, sig)`, `setdfl sig` for `signal(sig, SIG_DFL)`, and
`reraise sig` for `kill(getpid(), sig)`. -/
inductive SigAct
  | killpg (pid : Int) (sig : Nat)
  | setdfl (sig : Nat)
  | reraise (sig : Nat)
deriving DecidableEq

/-- The `sigexit` handler (child.c lines 54-61): when a child exists it
forwards `SIGHUP` to the child's process group, then restores the default
disposition for the received signal and re-raises it. -/
def sigexit (pid : Int) (sig : Nat) : List SigAct :=
  (if pid ≠ 0 then [SigAct.killpg pid SIGHUP] else []) ++
  [SigAct.setdfl sig, SigAct.reraise sig]

/-- A signal disposition installed by `child_create`. -/
inductive Disp
  | dispIgnore
  | dispSigexit
  | dispSigchld
deriving DecidableEq

/-- The handler installation performed by `child_create`
(child.c lines 117-124): `SIGHUP` is ignored, `SIGINT`, `SIGTERM` and
`SIGQUIT` get the `sigexit` handler, `SIGCHLD` gets `sigchld`. -/
def child_create_signals : List (Nat × Disp) :=
  [(SIGHUP, Disp.dispIgnore),
   (SIGINT, Disp.dispSigexit),
   (SIGTERM, Disp.dispSigexit),
   (SIGQUIT, Disp.dispSigexit),
   (SIGCHLD, Disp.dispSigchld)]

/-! ## `child_write`, `child_send`, `child_sendw` -/

/-- An observable effect of the send path: a pty `write` (carrying whether
the underlying syscall succeeded — the source discards that result), the
graceful `child_kill(false)`, the `term_reset_screen()` call, and the local
echo `term_write(buf, len)`. -/
inductive SendEff
  | ptyWrite (ok : Bool)
  | killGraceful
  | resetScreen
  | echo (bs : List Char)
deriving DecidableEq

/-- `child_write` (child.c lines 330-337): writes to the pty when its
descriptor is open — the `write` return value is not inspected — and calls
`child_kill(false)` when it is not. `write_ok` is the success of the
underlying syscall when one happens. -/
def child_write_eff (ptyOpen write_ok : Bool) : List SendEff :=
  if ptyOpen then [SendEff.ptyWrite write_ok] else [SendEff.killGraceful]

/-- `child_send` (child.c lines 339-346): resets the screen, echoes the
bytes when echoing is on, then `child_write`. -/
def child_send_eff (echoing : Bool) (bs : List Char) (ptyOpen write_ok : Bool) :
    List SendEff :=
  SendEff.resetScreen ::
    ((if echoing then [SendEff.echo bs] else []) ++ child_write_eff ptyOpen write_ok)

/-- `child_sendw` (child.c lines 348-355): converts the wide input with
`cs_wcntombn` (charset code outside this file; `conv_len` is its return,
`bs` the converted bytes) and calls `child_send` only when the returned
length is positive. -/
def child_sendw_eff (conv_len : Int) (echoing : Bool) (bs : List Char)
    (ptyOpen write_ok : Bool) : List SendEff :=
  if conv_len > 0 then child_send_eff echoing bs ptyOpen write_ok else []

/-! ## The `child_proc` event loop -/

/-- The mutable state of the event loop: whether `pty_fd >= 0`, whether
`log_fd >= 0`, and the pending status (`status != -1`). -/
structure BridgeState where
  ptyOpen : Bool
  logOpen : Bool
  status : Option WaitStatus
deriving DecidableEq

/-- An observable output of one run of `child_proc`: `display bs` is a
`term_write(buf, len)` of pty data, `logw bs` the matching transcript
`write(log_fd, buf, len)`, `statusMsg s` the `term_write(s, l)` of a
formatted exit-status line, and `readRet bs` records what a `read(pty_fd,...)`
call returned (`[]` for a zero-or-error result). -/
inductive BridgeOut
  | display (bs : List Char)
  | logw (bs : List Char)
  | statusMsg (s : List Char)
  | readRet (bs : List Char)
deriving DecidableEq

/-- One return of the `select` call (child.c line 257): whether the pty
descriptor was flagged ready and, if so, what the `read` then returns
(`some []` standing for a zero-or-error read), and whether the host
notification descriptor `win_fd` was flagged. -/
structure BridgeEv where
  ptyReady : Option (List Char)
  winReady : Bool

/-- The status-line formatting of `child_proc` (child.c lines 236-244):
`"<cmd>: Exit <code>"` for a normal exit with `code && code != 255`,
`"<cmd>: <strsignal(sig)>"` for a signal death, nothing otherwise.
`strsig` stands for the C library's `strsignal`. -/
def formatStatus (cmd : List Char) (strsig : Nat → List Char) :
    WaitStatus → Option (List Char)
  | .exited code =>
    if code ≠ 0 ∧ code ≠ 255 then
      some (cmd ++ (": Exit ").data ++ (Nat.repr code).data)
    else
      none
  | .signaled sig => some (cmd ++ (": ").data ++ strsig sig)

/-- The status-reporting step at the top of each `child_proc` iteration
(child.c lines 235-250): when a captured status is pending and the pty
descriptor is marked closed, forward the formatted line (when there is
one) and clear the pending status. -/
def procStatus (cmd : List Char) (strsig : Nat → List Char) (s : BridgeState) :
    BridgeState × List BridgeOut :=
  match s.status, s.ptyOpen with
  | some st, false =>
    ({ s with status := none }, (formatStatus cmd strsig st).toList.map BridgeOut.statusMsg)
  | _, _ => (s, [])

/-- The pty-readiness step of `child_proc` (child.c lines 258-281): when
the pty is open and flagged ready, a `read` happens; a positive-length
result is forwarded to the terminal consumer and, when the transcript sink
is open, appended there; a zero-or-error result marks the pty descriptor
closed. -/
def procRead (s : BridgeState) (ptyReady : Option (List Char)) :
    BridgeState × List BridgeOut :=
  if s.ptyOpen then
    match ptyReady with
    | some bs =>
      if 0 < bs.length then
        (s, BridgeOut.readRet bs :: BridgeOut.display bs ::
            (if s.logOpen then [BridgeOut.logw bs] else []))
      else
        ({ s with ptyOpen := false }, [BridgeOut.readRet bs])
    | none => (s, [])
  else
    (s, [])

/-- The `for (;;)` loop of `child_proc` (child.c lines 231-286), driven by
the successive `select` outcomes: each iteration runs the status step, then
the pty step, and returns to the caller when the host notification
descriptor is flagged. The result is the final state and the concatenated
outputs. -/
def child_proc_run (cmd : List Char) (strsig : Nat → List Char) :
    BridgeState → List BridgeEv → BridgeState × List BridgeOut
  | s, [] => (s, [])
  | s, ev :: rest =>
    let p1 := procStatus cmd strsig s
    let p2 := procRead p1.1 ev.ptyReady
    if ev.winReady then
      (p2.1, p1.2 ++ p2.2)
    else
      let p3 := child_proc_run cmd strsig p2.1 rest
      (p3.1, p1.2 ++ p2.2 ++ p3.2)

/-- Selector for `display` outputs. -/
def dispOf : BridgeOut → Option (List Char)
  | .display bs => some bs
  | _ => none

/-- Selector for `logw` outputs. -/
def logOf : BridgeOut → Option (List Char)
  | .logw bs => some bs
  | _ => none

/-- Selector for `readRet` outputs. -/
def readOf : BridgeOut → Option (List Char)
  | .readRet bs => some bs
  | _ => none

/-- Selector for `statusMsg` outputs. -/
def statusOf : BridgeOut → Option (List Char)
  | .statusMsg s => some s
  | _ => none

/-- All bytes forwarded to the terminal consumer as pty data. -/
def displayBytes (outs : List BridgeOut) : List Char :=
  (outs.filterMap dispOf).flatten

/-- All bytes appended to the transcript sink. -/
def logBytes (outs : List BridgeOut) : List Char :=
  (outs.filterMap logOf).flatten

/-- All bytes the `read` calls on the pty returned. -/
def readBytes (outs : List BridgeOut) : List Char :=
  (outs.filterMap readOf).flatten

/-- The status messages forwarded to the terminal consumer. -/
def statusMsgs (outs : List BridgeOut) : List (List Char) :=
  outs.filterMap statusOf

/-! ## Path expansion of `child_conv_path` -/

/-- The POSIX-side path expansion of `child_conv_path` (child.c lines
373-422). A path starting with `~` is split at the first `/`: the name
between them selects the base (the session's `home` for a bare tilde, the
named account's home directory via `pw_dir` — `getpwnam(name)->pw_dir`,
with an empty base when lookup fails — otherwise), and the expansion is
`base ++ "/" ++ rest`. A path starting with `/` passes through unchanged.
Any other path is resolved against the foreground process's working
directory (`cwd`, the net result of the `/proc/<fg_pid>/cwd` lookup),
falling back to `home`. -/
def child_conv_path_exp (home : List Char) (pw_dir : List Char → Option (List Char))
    (cwd : Option (List Char)) : List Char → List Char
  | '~' :: tail =>
    let name := tail.takeWhile (fun c => c ≠ '/')
    let rest := (tail.dropWhile (fun c => c ≠ '/')).tail
    let base := if name = [] then home else (pw_dir name).getD []
    base ++ '/' :: rest
  | '/' :: tail => '/' :: tail
  | path => (cwd.getD home) ++ '/' :: path

/-- `child_conv_path` (child.c lines 364-456): the POSIX-side expansion
followed by the conversion to the host-native representation. `host_conv`
stands for the Cygwin conversion (`cygwin_create_path` and the stripping
of the long-path prefix from its output), host API code outside this
file. -/
def child_conv_path (home : List Char) (pw_dir : List Char → Option (List Char))
    (cwd : Option (List Char)) (host_conv : List Char → List Char)
    (path : List Char) : List Char :=
  host_conv (child_conv_path_exp home pw_dir cwd path)

/-! ## Helper lemmas -/

/-- The `error_sigs` bit test picks out exactly the eight fault signals. -/
theorem error_sigs_test (s : Nat) :
    ((error_sigs &&& (1 <<< s)) != 0) = true ↔
      s ∈ [SIGILL, SIGTRAP, SIGABRT, SIGFPE, SIGBUS, SIGSEGV, SIGPIPE, SIGSYS] := by
  by_cases h : s < 14
  · interval_cases s <;> decide
  · have hs : (14 : Nat) ≤ s := Nat.le_of_not_lt h
    have hmask : error_sigs < 2 ^ s := by
      calc error_sigs < 2 ^ 14 := by decide
        _ ≤ 2 ^ s := Nat.pow_le_pow_right (by decide) hs
    have hbit : error_sigs.testBit s = false := Nat.testBit_lt_two_pow hmask
    have hand : error_sigs &&& (1 <<< s) = 0 := by
      have h2 : (1 : Nat) <<< s = 2 ^ s := by
        simp [Nat.shiftLeft_eq]
      rw [h2, Nat.and_two_pow, hbit]
      simp
    constructor
    · intro hx
      rw [hand] at hx
      simp at hx
    · intro hx
      simp [SIGILL, SIGTRAP, SIGABRT, SIGFPE, SIGBUS, SIGSEGV, SIGPIPE, SIGSYS] at hx
      omega

/-! ## Claim theorems -/

/-- C1 counterexample: the claim says that under policy DEFAULT a child
that died from a signal makes the handler hold the session open; on the
code, a child killed by SIGKILL (signal 9) with no kill requested makes
`sigchld` call `exit(0)` instead. -/
theorem c1_counterexample :
    ¬ sigchldDecide false Hold.HOLD_DEFAULT (WaitStatus.signaled 9) = false := by
  decide

/-- C1 (amended): when the termination policy is DEFAULT and the tracked
child's exit status has been captured (and no explicit kill was requested),
the signal handler terminates the whole process immediately unless the
child exited normally with code 255; signal deaths also terminate, and only
the non-signal 255 exit holds the session open. -/
theorem c1_default_policy (st : WaitStatus) :
    sigchldDecide false Hold.HOLD_DEFAULT st = true ↔ st ≠ WaitStatus.exited 255 := by
  cases st with
  | exited code =>
    simp [sigchldDecide, WIFSIGNALED, WEXITSTATUS]
  | signaled sig =>
    simp [sigchldDecide, WIFSIGNALED]

/-- C2: when the termination policy is ERROR and the tracked child's status
has been captured (and no explicit kill was requested), the handler exits
the whole process exactly when the child exited cleanly with code 0 or was
terminated by one of the eight fault signals SIGILL, SIGTRAP, SIGABRT,
SIGFPE, SIGBUS, SIGSEGV, SIGPIPE, SIGSYS; every normal non-zero exit and
every terminating signal outside that set holds the session open. -/
theorem c2_error_policy (st : WaitStatus) :
    sigchldDecide false Hold.HOLD_ERROR st = true ↔
      st = WaitStatus.exited 0 ∨
        ∃ s, st = WaitStatus.signaled s ∧
          s ∈ [SIGILL, SIGTRAP, SIGABRT, SIGFPE, SIGBUS, SIGSEGV, SIGPIPE, SIGSYS] := by
  cases st with
  | exited code =>
    simp [sigchldDecide, WIFEXITED, WEXITSTATUS]
  | signaled sig =>
    rw [show sigchldDecide false Hold.HOLD_ERROR (WaitStatus.signaled sig)
        = ((error_sigs &&& (1 <<< WTERMSIG (WaitStatus.signaled sig))) != 0) from rfl]
    rw [show WTERMSIG (WaitStatus.signaled sig) = sig from rfl]
    rw [error_sigs_test sig]
    simp

/-- C3: `child_kill(true)` always terminates the whole process immediately;
`child_kill` exits immediately exactly when there is no tracked child, the
signal delivery to the child's process group failed, or point-blank was
requested; otherwise it defers, and once `killed` is set the `sigchld`
decision exits regardless of the configured policy — both at the decision
level and for the reaping loop that captures the tracked child's death. -/
theorem c3_kill_semantics (pid : Int) (kf pb : Bool) (hold : Hold) (st : WaitStatus)
    (status : Option WaitStatus) (rest : List WaitCall) :
    child_kill pid kf true = KillOutcome.exitNow
    ∧ (pid = 0 ∨ kf = true ∨ pb = true → child_kill pid kf pb = KillOutcome.exitNow)
    ∧ (pid ≠ 0 → kf = false → pb = false → child_kill pid kf pb = KillOutcome.deferred)
    ∧ sigchldDecide true hold st = true
    ∧ (pid > 0 →
        sigchldLoop true hold pid status (WaitCall.ret pid st false :: rest)
          = SigRes.exited0) := by
  refine ⟨?_, ?_, ?_, ?_, ?_⟩
  · simp [child_kill]
  · rintro (h | h | h) <;> simp [child_kill, h]
  · intro h1 h2 h3
    simp [child_kill, h1, h2, h3]
  · simp [sigchldDecide]
  · intro hp
    have hcond : ¬ ((pid > 0 ∧ pid ≠ pid) ∨ (pid = -1 ∧ false = true)) := by
      simp
    rw [sigchldLoop]
    rw [if_neg hcond, if_neg (by omega)]
    simp [sigchldDecide]

/-- With the tracked child already reaped (`pid = 0`), the reaping loop
discards every result and never exits or changes the recorded status. -/
theorem sigchldLoop_pid_zero (killed : Bool) (hold : Hold) :
    ∀ (calls : List WaitCall) (status : Option WaitStatus),
      sigchldLoop killed hold 0 status calls = SigRes.cont 0 status := by
  intro calls
  induction calls with
  | nil => intro status; rfl
  | cons c rest ih =>
    intro status
    obtain ⟨cpid, st, eintr⟩ := c
    by_cases h : (cpid > 0 ∧ cpid ≠ 0) ∨ (cpid = -1 ∧ eintr = true)
    · rw [sigchldLoop, if_pos h, ih]
    · have hle : cpid ≤ 0 := by
        rcases Int.lt_or_le 0 cpid with hpos | hle
        · exact absurd (Or.inl ⟨hpos, by omega⟩) h
        · exact hle
      rw [sigchldLoop, if_neg h, if_pos hle]

/-- C4: the child-termination handler's reaping loop discards statuses of
process IDs other than the tracked child and retries on interruption,
stops when nothing is outstanding, and on reaping the tracked child records
its status (pid reset to 0) and applies the policy decision; and reaping is
idempotent — once the tracked child's status has been captured (`pid = 0`),
no sequence of further reap attempts exits the process or re-triggers
policy evaluation. -/
theorem c4_reap_loop (killed : Bool) (hold : Hold) (pid cpid : Int)
    (status : Option WaitStatus) (st : WaitStatus) (rest : List WaitCall) :
    (∀ (calls : List WaitCall) (s0 : Option WaitStatus),
        sigchldLoop killed hold 0 s0 calls = SigRes.cont 0 s0)
    ∧ (cpid > 0 → cpid ≠ pid →
        sigchldLoop killed hold pid status (WaitCall.ret cpid st false :: rest)
          = sigchldLoop killed hold pid status rest)
    ∧ (sigchldLoop killed hold pid status (WaitCall.ret (-1) st true :: rest)
          = sigchldLoop killed hold pid status rest)
    ∧ (cpid ≤ 0 →
        sigchldLoop killed hold pid status (WaitCall.ret cpid st false :: rest)
          = SigRes.cont pid status)
    ∧ (pid > 0 →
        sigchldLoop killed hold pid status (WaitCall.ret pid st false :: rest)
          = (if sigchldDecide killed hold st then SigRes.exited0
             else sigchldLoop killed hold 0 (some st) rest)) := by
  refine ⟨sigchldLoop_pid_zero killed hold, ?_, ?_, ?_, ?_⟩
  · intro h1 h2
    rw [sigchldLoop, if_pos (Or.inl ⟨h1, h2⟩)]
  · rw [sigchldLoop, if_pos (Or.inr ⟨rfl, rfl⟩)]
  · intro hle
    have hcond : ¬ ((cpid > 0 ∧ cpid ≠ pid) ∨ (cpid = -1 ∧ false = true)) := by
      simp
      omega
    rw [sigchldLoop, if_neg hcond, if_pos hle]
  · intro hp
    have hcond : ¬ ((pid > 0 ∧ pid ≠ pid) ∨ (pid = -1 ∧ false = true)) := by
      simp
    rw [sigchldLoop, if_neg hcond, if_neg (by omega)]

/-- The byte extractors distribute over output concatenation. -/
theorem bridge_extract_append (a b : List BridgeOut) :
    displayBytes (a ++ b) = displayBytes a ++ displayBytes b
    ∧ logBytes (a ++ b) = logBytes a ++ logBytes b
    ∧ readBytes (a ++ b) = readBytes a ++ readBytes b
    ∧ statusMsgs (a ++ b) = statusMsgs a ++ statusMsgs b := by
  refine ⟨?_, ?_, ?_, ?_⟩ <;>
    simp [displayBytes, logBytes, readBytes, statusMsgs, List.filterMap_append]

/-- The status step emits only status messages and leaves the descriptors
unchanged; it clears the pending status exactly when it was pending with
the pty closed. -/
theorem procStatus_spec (cmd : List Char) (strsig : Nat → List Char) (s : BridgeState) :
    displayBytes (procStatus cmd strsig s).2 = []
    ∧ logBytes (procStatus cmd strsig s).2 = []
    ∧ readBytes (procStatus cmd strsig s).2 = []
    ∧ (procStatus cmd strsig s).1.ptyOpen = s.ptyOpen
    ∧ (procStatus cmd strsig s).1.logOpen = s.logOpen
    ∧ (s.status = none → procStatus cmd strsig s = (s, [])) := by
  obtain ⟨pty, lg, stat⟩ := s
  cases stat with
  | none =>
    cases pty <;>
      simp [procStatus, displayBytes, logBytes, readBytes]
  | some st =>
    cases pty with
    | false =>
      cases hf : formatStatus cmd strsig st <;>
        simp [procStatus, hf, displayBytes, logBytes, readBytes, dispOf, logOf, readOf]
    | true =>
      simp [procStatus, displayBytes, logBytes, readBytes]

/-- The pty step forwards to the terminal consumer exactly the bytes the
`read` call returned, mirrors them to the transcript sink when it is open,
emits no status message, and leaves the log descriptor and the pending
status unchanged. -/
theorem procRead_spec (s : BridgeState) (pr : Option (List Char)) :
    displayBytes (procRead s pr).2 = readBytes (procRead s pr).2
    ∧ (s.logOpen = true → logBytes (procRead s pr).2 = readBytes (procRead s pr).2)
    ∧ statusMsgs (procRead s pr).2 = []
    ∧ (procRead s pr).1.logOpen = s.logOpen
    ∧ (procRead s pr).1.status = s.status := by
  by_cases hp : s.ptyOpen
  · cases pr with
    | none =>
      simp [procRead, hp, displayBytes, logBytes, readBytes, statusMsgs]
    | some bs =>
      by_cases hb : 0 < bs.length
      · by_cases hl : s.logOpen = true
        · simp [procRead, hp, hb, hl, displayBytes, logBytes, readBytes, statusMsgs,
                dispOf, logOf, readOf, statusOf]
        · have hl' : s.logOpen = false := by
            cases h : s.logOpen
            · rfl
            · exact absurd h hl
          simp [procRead, hp, hb, hl', displayBytes, logBytes,
                readBytes, statusMsgs, dispOf, logOf, readOf, statusOf]
      · have hnil : bs = [] := List.length_eq_zero.mp (by omega)
        subst hnil
        simp [procRead, hp, displayBytes, logBytes, readBytes, statusMsgs,
              dispOf, logOf, readOf, statusOf]
  · simp [procRead, hp, displayBytes, logBytes, readBytes, statusMsgs]

/-- Unfolding of one iteration of the event loop. -/
theorem child_proc_run_cons (cmd : List Char) (strsig : Nat → List Char)
    (s : BridgeState) (ev : BridgeEv) (rest : List BridgeEv) :
    child_proc_run cmd strsig s (ev :: rest) =
      if ev.winReady then
        ((procRead (procStatus cmd strsig s).1 ev.ptyReady).1,
         (procStatus cmd strsig s).2 ++ (procRead (procStatus cmd strsig s).1 ev.ptyReady).2)
      else
        ((child_proc_run cmd strsig (procRead (procStatus cmd strsig s).1 ev.ptyReady).1 rest).1,
         (procStatus cmd strsig s).2 ++ (procRead (procStatus cmd strsig s).1 ev.ptyReady).2
           ++ (child_proc_run cmd strsig (procRead (procStatus cmd strsig s).1 ev.ptyReady).1 rest).2) := by
  rfl

/-- Across any run of the event loop, the bytes forwarded to the terminal
consumer equal the bytes the pty reads returned, and so do the transcript
appends when the sink is open. -/
theorem run_no_drop (cmd : List Char) (strsig : Nat → List Char) :
    ∀ (evs : List BridgeEv) (s : BridgeState),
      displayBytes (child_proc_run cmd strsig s evs).2
          = readBytes (child_proc_run cmd strsig s evs).2
      ∧ (s.logOpen = true →
          logBytes (child_proc_run cmd strsig s evs).2
            = readBytes (child_proc_run cmd strsig s evs).2) := by
  intro evs
  induction evs with
  | nil =>
    intro s
    constructor
    · simp [child_proc_run, displayBytes, readBytes]
    · intro _
      simp [child_proc_run, logBytes, readBytes]
  | cons ev rest ih =>
    intro s
    rw [child_proc_run_cons]
    obtain ⟨hd1, hl1, hr1, _, hlog1, _⟩ := procStatus_spec cmd strsig s
    obtain ⟨hd2, hl2, _, hlog2, _⟩ :=
      procRead_spec (procStatus cmd strsig s).1 ev.ptyReady
    obtain ⟨ihd, ihl⟩ := ih (procRead (procStatus cmd strsig s).1 ev.ptyReady).1
    by_cases hw : ev.winReady
    · rw [if_pos hw]
      obtain ⟨ha, hb, hc, _⟩ :=
        bridge_extract_append (procStatus cmd strsig s).2
          (procRead (procStatus cmd strsig s).1 ev.ptyReady).2
      constructor
      · simp [ha, hc, hd1, hr1, hd2]
      · intro hlo
        have hlo1 : (procStatus cmd strsig s).1.logOpen = true := by rw [hlog1]; exact hlo
        simp [hb, hc, hl1, hr1, hl2 hlo1]
    · rw [if_neg hw]
      obtain ⟨ha, hb, hc, _⟩ :=
        bridge_extract_append (procStatus cmd strsig s).2
          ((procRead (procStatus cmd strsig s).1 ev.ptyReady).2 ++
            (child_proc_run cmd strsig (procRead (procStatus cmd strsig s).1 ev.ptyReady).1 rest).2)
      obtain ⟨ha', hb', hc', _⟩ :=
        bridge_extract_append (procRead (procStatus cmd strsig s).1 ev.ptyReady).2
          (child_proc_run cmd strsig (procRead (procStatus cmd strsig s).1 ev.ptyReady).1 rest).2
      constructor
      · simp [ha, hc, ha', hc', hd1, hr1, hd2, ihd]
      · intro hlo
        have hlo1 : (procStatus cmd strsig s).1.logOpen = true := by rw [hlog1]; exact hlo
        have hlo2 : (procRead (procStatus cmd strsig s).1 ev.ptyReady).1.logOpen = true := by
          rw [hlog2]; exact hlo1
        simp [hb, hc, hb', hc', hl1, hr1, hl2 hlo1, ihl hlo2]

/-- C5: for every sequence of pty reads performed by the event loop and any
interleaving of host-notification events, the concatenation of all bytes
forwarded to the terminal consumer as pty data equals the byte stream the
reads on the pty returned, and when a transcript sink is open the same
bytes are appended to it — no byte is dropped or duplicated. -/
theorem c5_no_byte_loss (cmd : List Char) (strsig : Nat → List Char)
    (s : BridgeState) (evs : List BridgeEv) :
    displayBytes (child_proc_run cmd strsig s evs).2
        = readBytes (child_proc_run cmd strsig s evs).2
    ∧ (s.logOpen = true →
        logBytes (child_proc_run cmd strsig s evs).2
          = readBytes (child_proc_run cmd strsig s evs).2) :=
  run_no_drop cmd strsig evs s

/-- Evaluation of the status step: a no-op while the pty is open, and a
forward-and-clear when a status is pending with the pty closed. -/
theorem procStatus_eq (cmd : List Char) (strsig : Nat → List Char) (s : BridgeState) :
    (s.ptyOpen = true → procStatus cmd strsig s = (s, []))
    ∧ (∀ st, s.status = some st → s.ptyOpen = false →
        procStatus cmd strsig s =
          ({ s with status := none },
           (formatStatus cmd strsig st).toList.map BridgeOut.statusMsg)) := by
  obtain ⟨pty, lg, stat⟩ := s
  constructor
  · intro h
    subst h
    cases stat <;> rfl
  · intro st h1 h2
    subst h2
    cases stat with
    | none => exact absurd h1 (by simp)
    | some st' =>
      obtain rfl : st' = st := by injection h1
      rfl

/-- Extracting the status messages from a list of forwarded status lines. -/
theorem statusMsgs_map (l : List (List Char)) :
    statusMsgs (l.map BridgeOut.statusMsg) = l := by
  induction l with
  | nil => rfl
  | cons x r ih =>
    simp [statusMsgs, statusOf] at ih ⊢
    exact ih


/-- `statusMsgs` distributes over append (projection form). -/
theorem statusMsgs_append (a b : List BridgeOut) :
    statusMsgs (a ++ b) = statusMsgs a ++ statusMsgs b := by
  simp [statusMsgs, List.filterMap_append]

/-- The outputs of one iteration of the event loop. -/
theorem child_proc_run_cons_snd (cmd : List Char) (strsig : Nat → List Char)
    (s : BridgeState) (ev : BridgeEv) (rest : List BridgeEv) :
    (child_proc_run cmd strsig s (ev :: rest)).2 =
      (procStatus cmd strsig s).2 ++
        (procRead (procStatus cmd strsig s).1 ev.ptyReady).2 ++
        (if ev.winReady = true then []
         else (child_proc_run cmd strsig
                (procRead (procStatus cmd strsig s).1 ev.ptyReady).1 rest).2) := by
  by_cases hw : ev.winReady <;>
    simp [child_proc_run_cons, hw]

/-- The final state of one iteration of the event loop. -/
theorem child_proc_run_cons_fst (cmd : List Char) (strsig : Nat → List Char)
    (s : BridgeState) (ev : BridgeEv) (rest : List BridgeEv) :
    (child_proc_run cmd strsig s (ev :: rest)).1 =
      (if ev.winReady = true then (procRead (procStatus cmd strsig s).1 ev.ptyReady).1
       else (child_proc_run cmd strsig
              (procRead (procStatus cmd strsig s).1 ev.ptyReady).1 rest).1) := by
  by_cases hw : ev.winReady <;>
    simp [child_proc_run_cons, hw]

/-- With no status pending, a run of the event loop forwards no status
message and ends with no status pending. -/
theorem run_status_none (cmd : List Char) (strsig : Nat → List Char) :
    ∀ (evs : List BridgeEv) (s : BridgeState), s.status = none →
      statusMsgs (child_proc_run cmd strsig s evs).2 = []
      ∧ (child_proc_run cmd strsig s evs).1.status = none := by
  intro evs
  induction evs with
  | nil =>
    intro s hs
    exact ⟨rfl, hs⟩
  | cons ev rest ih =>
    intro s hs
    have h1 : procStatus cmd strsig s = (s, []) := (procStatus_spec cmd strsig s).2.2.2.2.2 hs
    have hp11 : (procStatus cmd strsig s).1 = s := by rw [h1]
    have hp12 : (procStatus cmd strsig s).2 = ([] : List BridgeOut) := by rw [h1]
    obtain ⟨_, _, hsm2, _, hst2⟩ := procRead_spec s ev.ptyReady
    have hst2' : (procRead s ev.ptyReady).1.status = none := by rw [hst2]; exact hs
    constructor
    · rw [child_proc_run_cons_snd, hp11, hp12, List.nil_append, statusMsgs_append, hsm2,
        List.nil_append]
      by_cases hw : ev.winReady
      · rw [if_pos hw]
        rfl
      · rw [if_neg hw]
        exact (ih (procRead s ev.ptyReady).1 hst2').1
    · rw [child_proc_run_cons_fst, hp11]
      by_cases hw : ev.winReady
      · rw [if_pos hw]
        exact hst2'
      · rw [if_neg hw]
        exact (ih (procRead s ev.ptyReady).1 hst2').2

/-- A formatted status is at most one line. -/
theorem formatStatus_toList_len (cmd : List Char) (strsig : Nat → List Char)
    (st : WaitStatus) : (formatStatus cmd strsig st).toList.length ≤ 1 := by
  cases h : formatStatus cmd strsig st <;> simp

/-- Any run of the event loop forwards at most one status message. -/
theorem run_status_count (cmd : List Char) (strsig : Nat → List Char) :
    ∀ (evs : List BridgeEv) (s : BridgeState),
      (statusMsgs (child_proc_run cmd strsig s evs).2).length ≤ 1 := by
  intro evs
  induction evs with
  | nil =>
    intro s
    simp [child_proc_run, statusMsgs]
  | cons ev rest ih =>
    intro s
    cases hstat : s.status with
    | none =>
      rw [(run_status_none cmd strsig (ev :: rest) s hstat).1]
      simp
    | some st =>
      by_cases hp : s.ptyOpen = true
      · have h1 : procStatus cmd strsig s = (s, []) := (procStatus_eq cmd strsig s).1 hp
        have hp11 : (procStatus cmd strsig s).1 = s := by rw [h1]
        have hp12 : (procStatus cmd strsig s).2 = ([] : List BridgeOut) := by rw [h1]
        obtain ⟨_, _, hsm2, _, _⟩ := procRead_spec s ev.ptyReady
        rw [child_proc_run_cons_snd, hp11, hp12, List.nil_append, statusMsgs_append, hsm2,
          List.nil_append]
        by_cases hw : ev.winReady
        · rw [if_pos hw]
          simp [statusMsgs]
        · rw [if_neg hw]
          exact ih (procRead s ev.ptyReady).1
      · have hpf : s.ptyOpen = false := by
          cases h : s.ptyOpen
          · rfl
          · exact absurd h hp
        have h1 := (procStatus_eq cmd strsig s).2 st hstat hpf
        have hp11 : (procStatus cmd strsig s).1 = { s with status := none } := by rw [h1]
        have hp12 : (procStatus cmd strsig s).2 =
            (formatStatus cmd strsig st).toList.map BridgeOut.statusMsg := by rw [h1]
        obtain ⟨_, _, hsm2, _, hst2⟩ := procRead_spec { s with status := none } ev.ptyReady
        have hst2' : (procRead { s with status := none } ev.ptyReady).1.status = none := by
          rw [hst2]
        rw [child_proc_run_cons_snd, hp11, hp12, statusMsgs_append, statusMsgs_append,
          statusMsgs_map, hsm2, List.append_nil]
        by_cases hw : ev.winReady
        · rw [if_pos hw]
          simp [statusMsgs]
          exact formatStatus_toList_len cmd strsig st
        · rw [if_neg hw]
          rw [(run_status_none cmd strsig rest _ hst2').1]
          simp
          exact formatStatus_toList_len cmd strsig st

/-- When a status is pending with the pty closed, the next run of the event
loop forwards exactly the formatted status line (when there is one) and
clears the pending status for good. -/
theorem run_status_some (cmd : List Char) (strsig : Nat → List Char)
    (st : WaitStatus) (s : BridgeState) (ev : BridgeEv) (rest : List BridgeEv)
    (hstat : s.status = some st) (hpf : s.ptyOpen = false) :
    statusMsgs (child_proc_run cmd strsig s (ev :: rest)).2
        = (formatStatus cmd strsig st).toList
    ∧ (child_proc_run cmd strsig s (ev :: rest)).1.status = none := by
  have h1 := (procStatus_eq cmd strsig s).2 st hstat hpf
  have hp11 : (procStatus cmd strsig s).1 = { s with status := none } := by rw [h1]
  have hp12 : (procStatus cmd strsig s).2 =
      (formatStatus cmd strsig st).toList.map BridgeOut.statusMsg := by rw [h1]
  obtain ⟨_, _, hsm2, _, hst2⟩ := procRead_spec { s with status := none } ev.ptyReady
  have hst2' : (procRead { s with status := none } ev.ptyReady).1.status = none := by
    rw [hst2]
  constructor
  · rw [child_proc_run_cons_snd, hp11, hp12, statusMsgs_append, statusMsgs_append,
      statusMsgs_map, hsm2, List.append_nil]
    by_cases hw : ev.winReady
    · rw [if_pos hw]
      simp [statusMsgs]
    · rw [if_neg hw]
      rw [(run_status_none cmd strsig rest _ hst2').1]
      simp
  · rw [child_proc_run_cons_fst, hp11]
    by_cases hw : ev.winReady
    · rw [if_pos hw]
      exact hst2'
    · rw [if_neg hw]
      exact (run_status_none cmd strsig rest _ hst2').2

/-- C6: when a captured exit status is pending and the pty descriptor is
marked closed, the event loop forwards exactly one status line to the
terminal consumer — `<command>: Exit <code>` for a non-zero, non-255 exit
code, `<command>: <signal description>` for a signal death, and nothing at
all for a clean zero exit or a 255 exit — then clears the pending status,
and any run forwards at most one status message. -/
theorem c6_status_message (cmd : List Char) (strsig : Nat → List Char)
    (st : WaitStatus) (s s' : BridgeState) (ev : BridgeEv) (rest : List BridgeEv)
    (evs' : List BridgeEv) (code sig : Nat) :
    (s.status = some st → s.ptyOpen = false →
      statusMsgs (child_proc_run cmd strsig s (ev :: rest)).2
          = (formatStatus cmd strsig st).toList
      ∧ (child_proc_run cmd strsig s (ev :: rest)).1.status = none)
    ∧ (statusMsgs (child_proc_run cmd strsig s' evs').2).length ≤ 1
    ∧ formatStatus cmd strsig (WaitStatus.exited 0) = none
    ∧ formatStatus cmd strsig (WaitStatus.exited 255) = none
    ∧ (code ≠ 0 → code ≠ 255 →
        formatStatus cmd strsig (WaitStatus.exited code)
          = some (cmd ++ (": Exit ").data ++ (Nat.repr code).data))
    ∧ formatStatus cmd strsig (WaitStatus.signaled sig)
        = some (cmd ++ (": ").data ++ strsig sig) := by
  refine ⟨?_, run_status_count cmd strsig evs' s', ?_, ?_, ?_, rfl⟩
  · intro h1 h2
    exact run_status_some cmd strsig st s ev rest h1 h2
  · simp [formatStatus]
  · simp [formatStatus]
  · intro h1 h2
    simp [formatStatus, h1, h2]

/-- C7 counterexample: the claim says a pty write failure is treated as
equivalent to child death and initiates `kill(false)`; on the code, a
failing `write` on an open pty descriptor performs no kill at all — the
return value of `write` is discarded. -/
theorem c7_counterexample :
    child_write_eff true false = [SendEff.ptyWrite false]
    ∧ ¬ SendEff.killGraceful ∈ child_write_eff true false := by
  decide

/-- C7 (amended): `child_write` writes to the pty when its descriptor is
open, ignoring the result of the underlying `write`; only an attempt to
write when the pty descriptor is not open is treated as equivalent to
child death and initiates the graceful `kill(false)`. -/
theorem c7_write_policy (ok : Bool) :
    child_write_eff true ok = [SendEff.ptyWrite ok]
    ∧ child_write_eff false ok = [SendEff.killGraceful] := by
  exact ⟨rfl, rfl⟩

/-- C8 counterexample: the claim says the handler forwards the same signal
that was received to the child's process group; on the code, receiving
`SIGINT` with a tracked child (pid 100) forwards `SIGHUP`, not `SIGINT`. -/
theorem c8_counterexample :
    ¬ SigAct.killpg 100 SIGINT ∈ sigexit 100 SIGINT
    ∧ SigAct.killpg 100 SIGHUP ∈ sigexit 100 SIGINT := by
  decide

/-- C8 (amended): on an interactive interrupt, terminate or quit request
(the hang-up signal itself is ignored, not handled), the `sigexit` handler
forwards `SIGHUP` — not the received signal — to the child's entire process
group when a tracked child exists, restores the default disposition for
the received signal, and re-raises that same signal against the current
process. -/
theorem c8_sigexit_actions (pid : Int) (sig : Nat) :
    (pid ≠ 0 → sigexit pid sig =
      [SigAct.killpg pid SIGHUP, SigAct.setdfl sig, SigAct.reraise sig])
    ∧ sigexit 0 sig = [SigAct.setdfl sig, SigAct.reraise sig]
    ∧ (SIGINT, Disp.dispSigexit) ∈ child_create_signals
    ∧ (SIGTERM, Disp.dispSigexit) ∈ child_create_signals
    ∧ (SIGQUIT, Disp.dispSigexit) ∈ child_create_signals
    ∧ (SIGHUP, Disp.dispIgnore) ∈ child_create_signals := by
  refine ⟨?_, by simp [sigexit], by decide, by decide, by decide, by decide⟩
  intro h
  simp [sigexit, h]

/-- C9: path translation round-trips — for every suffix, translating
`~/suffix` (bare tilde) yields the same result as translating the absolute
path `home ++ "/" ++ suffix` for an absolute session home, and every path
that already starts with the root separator passes through the expansion
unchanged, so its translation is exactly the host-native conversion of the
path itself. -/
theorem c9_path_roundtrip (h : List Char) (pw_dir : List Char → Option (List Char))
    (cwd : Option (List Char)) (host_conv : List Char → List Char)
    (suffix p home0 : List Char) :
    child_conv_path ('/' :: h) pw_dir cwd host_conv ('~' :: '/' :: suffix)
        = child_conv_path ('/' :: h) pw_dir cwd host_conv (('/' :: h) ++ '/' :: suffix)
    ∧ child_conv_path_exp home0 pw_dir cwd ('/' :: p) = '/' :: p
    ∧ child_conv_path home0 pw_dir cwd host_conv ('/' :: p) = host_conv ('/' :: p) := by
  exact ⟨rfl, rfl, rfl⟩

/-- C10: when the wide-to-multibyte conversion in `child_sendw` returns a
non-positive length, nothing is sent at all — no screen reset, no echo, no
pty write — and in particular no kill is triggered even when the pty
descriptor is closed. -/
theorem c10_sendw_unconvertible (conv_len : Int) (echoing ptyOpen write_ok : Bool)
    (bs : List Char) (hlen : conv_len ≤ 0) :
    child_sendw_eff conv_len echoing bs ptyOpen write_ok = []
    ∧ ¬ SendEff.killGraceful ∈ child_sendw_eff conv_len echoing bs false write_ok := by
  have hnot : ¬ conv_len > 0 := by omega
  constructor
  · simp [child_sendw_eff, hnot]
  · simp [child_sendw_eff, hnot]

/-- Witness for C10 at a concrete input. -/
theorem c10_sendw_unconvertible_witness :
    child_sendw_eff 0 true ['a'] false false = []
    ∧ ¬ SendEff.killGraceful ∈ child_sendw_eff 0 true ['a'] false false :=
  c10_sendw_unconvertible 0 true false false ['a'] (by decide)
